import Mathlib

/-!
Shallow embedding of the school-planner backend (src/main.py): two record
types stored in a relational store, plus the query-service operations the
endpoints implement.  Dates are modelled as integers (ordinal day numbers),
so that the order and the seven-day shift used by the date filters are
exact.  The store itself (SQLAlchemy session over SQLite) is modelled as a
`DB` value: the two tables as lists plus the next fresh identifier for each
table; a commit is just returning the new `DB`.
-/

namespace Planner

/-- A row of the `timetables` table (class `Timetable` in the source):
`id` integer primary key, `name` string.  The `tasks` relationship is
derived by query, not stored. -/
structure Timetable where
  id : Nat
  name : String
deriving Repr, DecidableEq

/-- A row of the `tasks` table (class `Task` in the source): `id` integer
primary key, `title`, `description` strings, `due_date` a calendar date
(here: ordinal day as `Int`), `completed` boolean defaulting to false,
`timetable_id` a nullable foreign key. -/
structure Task where
  id : Nat
  title : String
  description : String
  due_date : Int
  completed : Bool
  timetable_id : Option Nat
deriving Repr, DecidableEq

/-- The store state: the two tables, plus the next identifier each table
will assign.  Modelled from the spec: the Record Store is "responsible for
identity assignment" and `id` values are assigned fresh on insert and never
reused; the source delegates this to the database engine, which is not part
of the repository. -/
structure DB where
  timetables : List Timetable
  tasks : List Task
  nextTimetableId : Nat
  nextTaskId : Nat
deriving Repr, DecidableEq

/-- The empty store, as created by `Base.metadata.create_all`; the engine
assigns ids starting from 1. -/
def initDB : DB := { timetables := [], tasks := [], nextTimetableId := 1, nextTaskId := 1 }

/-- Outcome of an endpoint: a value, or the 404 `HTTPException`. -/
inductive ApiResult (α : Type) where
  | ok : α → ApiResult α
  | notFound : ApiResult α
deriving Repr, DecidableEq

/-- Replace the first element satisfying `p` by `a` (SQLAlchemy mutation of
the single object returned by `.first()`, then commit). -/
def replaceFirst {α : Type} (p : α → Bool) (a : α) : List α → List α
  | [] => []
  | x :: xs => if p x then a :: xs else x :: replaceFirst p a xs

/-- `db.query(Timetable).filter(Timetable.id == i).first()`. -/
def findTimetable (db : DB) (i : Nat) : Option Timetable :=
  db.timetables.find? (fun t => t.id == i)

/-- `db.query(Task).filter(Task.id == i).first()`. -/
def findTask (db : DB) (i : Nat) : Option Task :=
  db.tasks.find? (fun t => t.id == i)

/-- `create_timetable`: insert a new `Timetable(name=...)`; the store
assigns the fresh id (see `DB`). -/
def create_timetable (name : String) (db : DB) : Timetable × DB :=
  let new_timetable : Timetable := { id := db.nextTimetableId, name := name }
  (new_timetable,
   { db with timetables := db.timetables ++ [new_timetable],
             nextTimetableId := db.nextTimetableId + 1 })

/-- `view_timetables`: `db.query(Timetable).all()`. -/
def view_timetables (db : DB) : List Timetable :=
  db.timetables

/-- `get_timetable`: first row with the given id, else 404. -/
def get_timetable (timetable_id : Nat) (db : DB) : ApiResult Timetable × DB :=
  match findTimetable db timetable_id with
  | none => (.notFound, db)
  | some timetable => (.ok timetable, db)

/-- `update_timetable`: 404 if absent, else mutate `name` on the found row
and commit. -/
def update_timetable (timetable_id : Nat) (name : String) (db : DB) :
    ApiResult Timetable × DB :=
  match findTimetable db timetable_id with
  | none => (.notFound, db)
  | some existing_timetable =>
    let updated := { existing_timetable with name := name }
    (.ok updated,
     { db with timetables :=
         replaceFirst (fun t => t.id == timetable_id) updated db.timetables })

/-- The de-association SQLAlchemy performs when a parent with a
non-cascading `relationship` is deleted: flushing `db.delete(timetable)`
(with `tasks = relationship("Task", back_populates="timetable")` declaring
no delete cascade) first loads the timetable's child tasks and emits
`UPDATE tasks SET timetable_id = NULL` for each of them. -/
def deassociateTasks (timetable_id : Nat) (tasks : List Task) : List Task :=
  tasks.map (fun t =>
    if t.timetable_id == some timetable_id
    then { t with timetable_id := none } else t)

/-- `delete_timetable`: 404 if absent, else delete the found row and
commit.  The commit removes the timetable row and, per the default
relationship semantics (`deassociateTasks`), nulls the `timetable_id` of
its tasks; the task rows themselves are not deleted. -/
def delete_timetable (timetable_id : Nat) (db : DB) : ApiResult String × DB :=
  match findTimetable db timetable_id with
  | none => (.notFound, db)
  | some _ =>
    (.ok "Timetable deleted",
     { db with timetables := db.timetables.eraseP (fun t => t.id == timetable_id),
               tasks := deassociateTasks timetable_id db.tasks })

/-- `create_task`: insert `Task(title, description, due_date)`; `completed`
takes its column default `False`, `timetable_id` is left null. -/
def create_task (title description : String) (due_date : Int) (db : DB) :
    Task × DB :=
  let new_task : Task :=
    { id := db.nextTaskId, title := title, description := description,
      due_date := due_date, completed := false, timetable_id := none }
  (new_task,
   { db with tasks := db.tasks ++ [new_task], nextTaskId := db.nextTaskId + 1 })

/-- `view_tasks`: `db.query(Task).all()`. -/
def view_tasks (db : DB) : List Task :=
  db.tasks

/-- `get_task`: first row with the given id, else 404. -/
def get_task (task_id : Nat) (db : DB) : ApiResult Task × DB :=
  match findTask db task_id with
  | none => (.notFound, db)
  | some task => (.ok task, db)

/-- `update_task`: 404 if absent, else mutate `title`, `description`,
`due_date` on the found row and commit; `completed` and `timetable_id` are
not touched. -/
def update_task (task_id : Nat) (title description : String) (due_date : Int)
    (db : DB) : ApiResult Task × DB :=
  match findTask db task_id with
  | none => (.notFound, db)
  | some existing_task =>
    let updated := { existing_task with
                     title := title, description := description,
                     due_date := due_date }
    (.ok updated,
     { db with tasks := replaceFirst (fun t => t.id == task_id) updated db.tasks })

/-- `delete_task`: 404 if absent, else delete the found row and commit. -/
def delete_task (task_id : Nat) (db : DB) : ApiResult String × DB :=
  match findTask db task_id with
  | none => (.notFound, db)
  | some _ =>
    (.ok "Task deleted",
     { db with tasks := db.tasks.eraseP (fun t => t.id == task_id) })

/-- `mark_task_complete`: 404 if absent, else set `completed = True` on the
found row and commit. -/
def mark_task_complete (task_id : Nat) (db : DB) : ApiResult Task × DB :=
  match findTask db task_id with
  | none => (.notFound, db)
  | some task =>
    let updated := { task with completed := true }
    (.ok updated,
     { db with tasks := replaceFirst (fun t => t.id == task_id) updated db.tasks })

/-- `view_completed_tasks`: rows with `completed == True`. -/
def view_completed_tasks (db : DB) : List Task :=
  db.tasks.filter (fun t => t.completed == true)

/-- `view_pending_tasks`: rows with `completed == False`. -/
def view_pending_tasks (db : DB) : List Task :=
  db.tasks.filter (fun t => t.completed == false)

/-- `view_tasks_in_timetable`: rows whose `timetable_id` equals the given
id (a null `timetable_id` never matches, as in SQL). -/
def view_tasks_in_timetable (timetable_id : Nat) (db : DB) : List Task :=
  db.tasks.filter (fun t => t.timetable_id == some timetable_id)

/-- `add_task_to_timetable`: insert a task with `timetable_id` set to the
path parameter; no existence check on the timetable. -/
def add_task_to_timetable (timetable_id : Nat) (title description : String)
    (due_date : Int) (db : DB) : Task × DB :=
  let new_task : Task :=
    { id := db.nextTaskId, title := title, description := description,
      due_date := due_date, completed := false, timetable_id := some timetable_id }
  (new_task,
   { db with tasks := db.tasks ++ [new_task], nextTaskId := db.nextTaskId + 1 })

/-- `remove_task_from_timetable`: first row with both `id == task_id` and
`timetable_id == timetable_id`; 404 if none, else delete it and commit. -/
def remove_task_from_timetable (timetable_id task_id : Nat) (db : DB) :
    ApiResult String × DB :=
  match db.tasks.find? (fun t => t.id == task_id && t.timetable_id == some timetable_id) with
  | none => (.notFound, db)
  | some _ =>
    (.ok "Task removed from timetable",
     { db with tasks :=
         db.tasks.eraseP (fun t => t.id == task_id && t.timetable_id == some timetable_id) })

/-- `set_task_reminder`: 404 if the task is absent; otherwise only an
acknowledgement string is produced and nothing is written to the store. -/
def set_task_reminder (task_id : Nat) (reminder_date : Int) (db : DB) :
    ApiResult String × DB :=
  match findTask db task_id with
  | none => (.notFound, db)
  | some task =>
    (.ok ("Reminder set for task " ++ task.title ++ " on " ++ toString reminder_date), db)

/-- `view_overdue_tasks`: rows with `due_date < today` and
`completed == False`; `today` is the server date at request time, passed
here as a parameter. -/
def view_overdue_tasks (today : Int) (db : DB) : List Task :=
  db.tasks.filter (fun t => decide (t.due_date < today) && t.completed == false)

/-- `get_weekly_task_summary`: rows with `due_date` between `today` and
`today + 7` (SQL `BETWEEN`, inclusive of both bounds). -/
def get_weekly_task_summary (today : Int) (db : DB) : List Task :=
  let week_from_today : Int := today + 7
  db.tasks.filter
    (fun t => decide (today ≤ t.due_date) && decide (t.due_date ≤ week_from_today))

/-- `get_daily_task_summary`: rows with `due_date == today`. -/
def get_daily_task_summary (today : Int) (db : DB) : List Task :=
  db.tasks.filter (fun t => t.due_date == today)

/-- Every stored task id is below the next id the store will assign. -/
def taskIdsFresh (db : DB) : Prop :=
  ∀ t ∈ db.tasks, t.id < db.nextTaskId

/-- Every stored timetable id is below the next id the store will assign. -/
def timetableIdsFresh (db : DB) : Prop :=
  ∀ u ∈ db.timetables, u.id < db.nextTimetableId

/-- The id-assignment invariant of the store. -/
def idInv (db : DB) : Prop :=
  taskIdsFresh db ∧ timetableIdsFresh db

/-- One mutating endpoint call, relating the store before to the store
after.  Read-only endpoints do not touch the store, so they need no step. -/
inductive Step : DB → DB → Prop where
  | createTimetableStep (n : String) (db : DB) :
      Step db (create_timetable n db).2
  | updateTimetableStep (i : Nat) (n : String) (db : DB) :
      Step db (update_timetable i n db).2
  | deleteTimetableStep (i : Nat) (db : DB) :
      Step db (delete_timetable i db).2
  | createTaskStep (t d : String) (dd : Int) (db : DB) :
      Step db (create_task t d dd db).2
  | updateTaskStep (i : Nat) (t d : String) (dd : Int) (db : DB) :
      Step db (update_task i t d dd db).2
  | deleteTaskStep (i : Nat) (db : DB) :
      Step db (delete_task i db).2
  | completeTaskStep (i : Nat) (db : DB) :
      Step db (mark_task_complete i db).2
  | addTaskStep (k : Nat) (t d : String) (dd : Int) (db : DB) :
      Step db (add_task_to_timetable k t d dd db).2
  | removeTaskStep (k i : Nat) (db : DB) :
      Step db (remove_task_from_timetable k i db).2
  | reminderStep (i : Nat) (rd : Int) (db : DB) :
      Step db (set_task_reminder i rd db).2

/-- Fixture task: pending, due day 3, not attached to a timetable. -/
def tA : Task :=
  { id := 1, title := "a", description := "", due_date := 3,
    completed := false, timetable_id := none }

/-- Fixture task: completed, due day 5, attached to timetable 7. -/
def tB : Task :=
  { id := 2, title := "b", description := "", due_date := 5,
    completed := true, timetable_id := some 7 }

/-- Fixture task: pending, due day 12, attached to timetable 7. -/
def tC : Task :=
  { id := 3, title := "c", description := "", due_date := 12,
    completed := false, timetable_id := some 7 }

/-- Fixture task: pending, due day 13, not attached to a timetable. -/
def tD : Task :=
  { id := 4, title := "d", description := "", due_date := 13,
    completed := false, timetable_id := none }

/-- Fixture store holding one timetable and the four fixture tasks. -/
def egDB : DB :=
  { timetables := [{ id := 7, name := "T" }], tasks := [tA, tB, tC, tD],
    nextTimetableId := 8, nextTaskId := 5 }

/-! ### List infrastructure lemmas -/

theorem mem_replaceFirst {α : Type} (p : α → Bool) (a : α) (l : List α) (x : α)
    (hx : x ∈ replaceFirst p a l) : x ∈ l ∨ x = a := by
  induction l with
  | nil => simp [replaceFirst] at hx
  | cons y ys ih =>
    by_cases hy : p y = true
    · simp [replaceFirst, hy] at hx
      rcases hx with hx | hx
      · exact Or.inr hx
      · exact Or.inl (List.mem_cons_of_mem _ hx)
    · simp [replaceFirst, hy] at hx
      rcases hx with hx | hx
      · exact Or.inl (by simp [hx])
      · rcases ih hx with h | h
        · exact Or.inl (List.mem_cons_of_mem _ h)
        · exact Or.inr h

theorem find?_replaceFirst_self {α : Type} (p : α → Bool) (a : α) (l : List α)
    (ha : p a = true) (x : α) (hx : l.find? p = some x) :
    (replaceFirst p a l).find? p = some a := by
  induction l with
  | nil => simp at hx
  | cons y ys ih =>
    by_cases hy : p y = true
    · simp [replaceFirst, hy, List.find?_cons_of_pos, ha]
    · rw [List.find?_cons_of_neg _ hy] at hx
      simp [replaceFirst, hy, List.find?_cons_of_neg, ih hx]

theorem replaceFirst_replaceFirst {α : Type} (p : α → Bool) (a : α)
    (ha : p a = true) (l : List α) :
    replaceFirst p a (replaceFirst p a l) = replaceFirst p a l := by
  induction l with
  | nil => rfl
  | cons y ys ih =>
    by_cases hy : p y = true
    · simp [replaceFirst, hy, ha]
    · simp [replaceFirst, hy, ih]

theorem find?_eraseP_none_of_pairwise {α : Type} (f : α → Nat) (i : Nat)
    (q : α → Bool) (hq : ∀ u, q u = true → f u = i) (l : List α)
    (hwf : l.Pairwise (fun a b => f a ≠ f b))
    (hfound : (l.find? q).isSome = true) :
    (l.eraseP q).find? (fun u => f u == i) = none := by
  induction l with
  | nil => simp at hfound
  | cons y ys ih =>
    rcases List.pairwise_cons.mp hwf with ⟨hy, hys⟩
    by_cases hqy : q y = true
    · rw [List.eraseP_cons_of_pos hqy]
      apply List.find?_eq_none.mpr
      intro x hx
      have hfx : f y ≠ f x := hy x hx
      have hfy : f y = i := hq y hqy
      simp only [beq_iff_eq]
      intro hxi
      exact hfx (by rw [hfy, hxi])
    · rw [List.eraseP_cons_of_neg (by simp [hqy])]
      rw [List.find?_cons_of_neg _ hqy] at hfound
      rcases Option.isSome_iff_exists.mp hfound with ⟨x, hx⟩
      have hxmem : x ∈ ys := List.mem_of_find?_eq_some hx
      have hxi : f x = i := hq x (List.find?_some hx)
      have hyne : ¬ ((fun u => f u == i) y = true) := by
        simp only [beq_iff_eq]
        intro hyi
        exact hy x hxmem (by rw [hyi, hxi])
      rw [List.find?_cons_of_neg (p := fun u => f u == i) _ hyne]
      exact ih hys (by rw [hx]; rfl)

theorem find?_eq_of_pairwise_mem {α : Type} (f : α → Nat) (i : Nat)
    (l : List α) (t : α) (hwf : l.Pairwise (fun a b => f a ≠ f b))
    (htmem : t ∈ l) (hti : f t = i) :
    l.find? (fun u => f u == i) = some t := by
  induction l with
  | nil => simp at htmem
  | cons y ys ih =>
    rcases List.pairwise_cons.mp hwf with ⟨hy, hys⟩
    rcases List.mem_cons.mp htmem with rfl | hmem
    · exact List.find?_cons_of_pos _ (by simp [hti])
    · have hyne : ¬ ((fun u => f u == i) y = true) := by
        simp only [beq_iff_eq]
        intro hyi
        exact hy t hmem (by rw [hyi, hti])
      rw [List.find?_cons_of_neg (p := fun u => f u == i) _ hyne]
      exact ih hys hmem

theorem eq_of_pairwise_mem {α : Type} (f : α → Nat) (l : List α) (t u : α)
    (hwf : l.Pairwise (fun a b => f a ≠ f b))
    (ht : t ∈ l) (hu : u ∈ l) (hfu : f t = f u) : t = u := by
  induction l with
  | nil => simp at ht
  | cons y ys ih =>
    rcases List.pairwise_cons.mp hwf with ⟨hy, hys⟩
    rcases List.mem_cons.mp ht with rfl | ht2
    · rcases List.mem_cons.mp hu with rfl | hu2
      · rfl
      · exact absurd hfu (hy u hu2)
    · rcases List.mem_cons.mp hu with rfl | hu2
      · exact absurd hfu.symm (hy t ht2)
      · exact ih hys ht2 hu2

theorem find?_deassociate (k i : Nat) (l : List Task) (t : Task)
    (h : l.find? (fun x => x.id == i) = some t) :
    (deassociateTasks k l).find? (fun x => x.id == i)
      = some (if t.timetable_id == some k
              then { t with timetable_id := none } else t) := by
  induction l with
  | nil => simp at h
  | cons y ys ih =>
    by_cases hy : (y.id == i) = true
    · rw [List.find?_cons_of_pos (p := fun x : Task => x.id == i) _ hy] at h
      injection h with h
      subst h
      have hfy : ((if y.timetable_id == some k
                   then { y with timetable_id := none } else y : Task).id == i) = true := by
        by_cases hk : (y.timetable_id == some k) = true
        · rw [if_pos hk]
          exact hy
        · rw [if_neg hk]
          exact hy
      simp only [deassociateTasks, List.map_cons]
      rw [List.find?_cons_of_pos (p := fun x : Task => x.id == i) _ hfy]
    · rw [List.find?_cons_of_neg (p := fun x : Task => x.id == i) _ hy] at h
      have hfy : ¬ (((if y.timetable_id == some k
                      then { y with timetable_id := none } else y : Task).id == i) = true) := by
        by_cases hk : (y.timetable_id == some k) = true
        · rw [if_pos hk]
          exact hy
        · rw [if_neg hk]
          exact hy
      simp only [deassociateTasks, List.map_cons]
      rw [List.find?_cons_of_neg (p := fun x : Task => x.id == i) _ hfy]
      exact ih h

theorem forall₂_f_same {α : Type} (f : α → Nat) (l : List α) :
    List.Forall₂ (fun a b => f b = f a) l l :=
  List.forall₂_same.mpr (fun _ _ => rfl)

theorem forall₂_f_replaceFirst {α : Type} (f : α → Nat) (p : α → Bool) (u : α)
    (l : List α) (hp : ∀ x, p x = true → f u = f x) :
    List.Forall₂ (fun a b => f b = f a) l (replaceFirst p u l) := by
  induction l with
  | nil => exact List.Forall₂.nil
  | cons y ys ih =>
    by_cases hy : p y = true
    · simp only [replaceFirst, hy, if_true]
      exact List.Forall₂.cons (hp y hy) (forall₂_f_same f ys)
    · simp only [replaceFirst, hy, if_false]
      exact List.Forall₂.cons rfl ih

theorem forall₂_id_deassociate (k : Nat) (l : List Task) :
    List.Forall₂ (fun a b => Task.id b = Task.id a) l (deassociateTasks k l) := by
  induction l with
  | nil => exact List.Forall₂.nil
  | cons y ys ih =>
    simp only [deassociateTasks, List.map_cons] at ih ⊢
    refine List.Forall₂.cons ?_ ih
    by_cases hy : (y.timetable_id == some k) = true <;> simp [hy]

/-! ### Shape lemmas: one equation per endpoint branch -/

theorem get_task_found (i : Nat) (db : DB) (t : Task)
    (h : findTask db i = some t) : get_task i db = (ApiResult.ok t, db) := by
  unfold get_task
  rw [h]

theorem get_task_missing (i : Nat) (db : DB)
    (h : findTask db i = none) : get_task i db = (ApiResult.notFound, db) := by
  unfold get_task
  rw [h]

theorem update_task_found (i : Nat) (title desc : String) (dd : Int)
    (db : DB) (t : Task) (h : findTask db i = some t) :
    update_task i title desc dd db
      = (ApiResult.ok { t with title := title, description := desc, due_date := dd },
         { db with tasks := replaceFirst (fun x => x.id == i)
                      ({ t with title := title, description := desc, due_date := dd }) db.tasks }) := by
  unfold update_task
  rw [h]

theorem update_task_missing (i : Nat) (title desc : String) (dd : Int)
    (db : DB) (h : findTask db i = none) :
    update_task i title desc dd db = (ApiResult.notFound, db) := by
  unfold update_task
  rw [h]

theorem delete_task_found (i : Nat) (db : DB) (t : Task)
    (h : findTask db i = some t) :
    delete_task i db
      = (ApiResult.ok "Task deleted",
         { db with tasks := db.tasks.eraseP (fun x => x.id == i) }) := by
  unfold delete_task
  rw [h]

theorem delete_task_missing (i : Nat) (db : DB)
    (h : findTask db i = none) :
    delete_task i db = (ApiResult.notFound, db) := by
  unfold delete_task
  rw [h]

theorem mark_task_complete_found (i : Nat) (db : DB) (t : Task)
    (h : findTask db i = some t) :
    mark_task_complete i db
      = (ApiResult.ok { t with completed := true },
         { db with tasks := replaceFirst (fun x => x.id == i)
                      ({ t with completed := true }) db.tasks }) := by
  unfold mark_task_complete
  rw [h]

theorem mark_task_complete_missing (i : Nat) (db : DB)
    (h : findTask db i = none) :
    mark_task_complete i db = (ApiResult.notFound, db) := by
  unfold mark_task_complete
  rw [h]

theorem get_timetable_missing (i : Nat) (db : DB)
    (h : findTimetable db i = none) :
    get_timetable i db = (ApiResult.notFound, db) := by
  unfold get_timetable
  rw [h]

theorem update_timetable_missing (i : Nat) (n : String) (db : DB)
    (h : findTimetable db i = none) :
    update_timetable i n db = (ApiResult.notFound, db) := by
  unfold update_timetable
  rw [h]

theorem delete_timetable_missing (i : Nat) (db : DB)
    (h : findTimetable db i = none) :
    delete_timetable i db = (ApiResult.notFound, db) := by
  unfold delete_timetable
  rw [h]

theorem update_timetable_found (i : Nat) (n : String) (db : DB) (u : Timetable)
    (h : findTimetable db i = some u) :
    update_timetable i n db
      = (ApiResult.ok { u with name := n },
         { db with timetables := replaceFirst (fun x => x.id == i)
                                   ({ u with name := n }) db.timetables }) := by
  unfold update_timetable
  rw [h]

theorem delete_timetable_found (i : Nat) (db : DB) (u : Timetable)
    (h : findTimetable db i = some u) :
    delete_timetable i db
      = (ApiResult.ok "Timetable deleted",
         { db with timetables := db.timetables.eraseP (fun x => x.id == i),
                   tasks := deassociateTasks i db.tasks }) := by
  unfold delete_timetable
  rw [h]

theorem remove_task_found (k i : Nat) (db : DB) (t : Task)
    (h : db.tasks.find? (fun x => x.id == i && x.timetable_id == some k) = some t) :
    remove_task_from_timetable k i db
      = (ApiResult.ok "Task removed from timetable",
         { db with tasks :=
             db.tasks.eraseP (fun x => x.id == i && x.timetable_id == some k) }) := by
  unfold remove_task_from_timetable
  rw [h]

theorem remove_task_missing (k i : Nat) (db : DB)
    (h : db.tasks.find? (fun x => x.id == i && x.timetable_id == some k) = none) :
    remove_task_from_timetable k i db = (ApiResult.notFound, db) := by
  unfold remove_task_from_timetable
  rw [h]

theorem set_task_reminder_state (i : Nat) (rd : Int) (db : DB) :
    (set_task_reminder i rd db).2 = db := by
  unfold set_task_reminder
  cases h : findTask db i <;> rfl

/-! ### Claims -/

/-- C1 counterexample: deleting timetable 7 from the fixture store
succeeds, and task `tC` (which referenced timetable 7) is afterwards
returned by `get_task` with `timetable_id = none`, not `some 7`: the
foreign key is nulled by the delete, refuting the claim as stated. -/
theorem C1_counterexample :
    (delete_timetable 7 egDB).1 = ApiResult.ok "Timetable deleted" ∧
    (get_task tC.id (delete_timetable 7 egDB).2).1
      = ApiResult.ok { tC with timetable_id := none } ∧
    ({ tC with timetable_id := none } : Task).timetable_id ≠ some 7 :=
  ⟨rfl, rfl, by decide⟩

/-- C1 (amended): a successful timetable delete does not cascade to the
tasks — every task that referenced the deleted timetable still exists and
`get_task` on its id still succeeds — but the delete de-associates those
tasks, returning each of them with `timetable_id` set to null and all
other fields unchanged. -/
theorem C1_delete_timetable_deassociates (k : Nat) (db : DB) (t : Task)
    (ht : findTask db t.id = some t) (hk : t.timetable_id = some k)
    (hdel : (delete_timetable k db).1 ≠ ApiResult.notFound) :
    (get_task t.id (delete_timetable k db).2).1
      = ApiResult.ok { t with timetable_id := none } := by
  cases hf : findTimetable db k with
  | none =>
    rw [delete_timetable_missing k db hf] at hdel
    exact absurd rfl hdel
  | some u =>
    have e2 : (delete_timetable k db).2
        = { db with timetables := db.timetables.eraseP (fun x => x.id == k),
                    tasks := deassociateTasks k db.tasks } := by
      rw [delete_timetable_found k db u hf]
    rw [e2]
    have ht' : db.tasks.find? (fun x => x.id == t.id) = some t := ht
    have hfound := find?_deassociate k t.id db.tasks t ht'
    have hif : (if t.timetable_id == some k
                then ({ t with timetable_id := none } : Task) else t)
        = { t with timetable_id := none } := by
      rw [hk]
      simp
    rw [hif] at hfound
    have hf2 : findTask
        { db with timetables := db.timetables.eraseP (fun x => x.id == k),
                  tasks := deassociateTasks k db.tasks } t.id
        = some ({ t with timetable_id := none }) := hfound
    rw [get_task_found _ _ _ hf2]

/-- C1 witness: on the fixture store, after deleting timetable 7 the task
`tC` is still retrievable, de-associated. -/
theorem C1_witness :
    (get_task tC.id (delete_timetable 7 egDB).2).1
      = ApiResult.ok { tC with timetable_id := none } :=
  C1_delete_timetable_deassociates 7 egDB tC (by rfl) (by rfl) (by decide)

/-- C2: for every store state and every task, the completed and pending
listings are disjoint and together are exactly the full task listing. -/
theorem C2_completed_pending_partition (db : DB) (t : Task) :
    (t ∈ view_tasks db ↔ t ∈ view_completed_tasks db ∨ t ∈ view_pending_tasks db) ∧
    ¬ (t ∈ view_completed_tasks db ∧ t ∈ view_pending_tasks db) := by
  cases hc : t.completed <;>
    simp [view_tasks, view_completed_tasks, view_pending_tasks, List.mem_filter, hc]

/-- C2 witness: the partition property evaluated on the fixture store. -/
theorem C2_witness :
    (tA ∈ view_tasks egDB ↔ tA ∈ view_completed_tasks egDB ∨ tA ∈ view_pending_tasks egDB) ∧
    ¬ (tA ∈ view_completed_tasks egDB ∧ tA ∈ view_pending_tasks egDB) :=
  C2_completed_pending_partition egDB tA

/-- C3: the overdue listing is exactly the stored tasks with
`due_date < today` and `completed = false`, and it is contained in the
pending listing. -/
theorem C3_overdue_characterization (today : Int) (db : DB) (t : Task) :
    (t ∈ view_overdue_tasks today db ↔
      t ∈ view_tasks db ∧ t.due_date < today ∧ t.completed = false) ∧
    (t ∈ view_overdue_tasks today db → t ∈ view_pending_tasks db) := by
  constructor
  · simp [view_overdue_tasks, view_tasks, List.mem_filter, and_assoc]
  · intro h
    simp [view_overdue_tasks, List.mem_filter] at h
    simp [view_pending_tasks, List.mem_filter, h.1, h.2.2]

/-- C3 witness: on the fixture store with today = 5, the overdue task `tA`
is in the pending listing. -/
theorem C3_witness : tA ∈ view_pending_tasks egDB :=
  (C3_overdue_characterization 5 egDB tA).2 (by decide)

/-- C4: a successful task update sets exactly `title`, `description`,
`due_date` to the arguments — a subsequent `get_task` returns them — and
leaves `completed`, `timetable_id` and `id` unchanged. -/
theorem C4_update_task_roundtrip (i : Nat) (title desc : String) (dd : Int)
    (db : DB) (t : Task) (ht : findTask db i = some t) :
    ∃ u : Task,
      (update_task i title desc dd db).1 = ApiResult.ok u ∧
      (get_task i (update_task i title desc dd db).2).1 = ApiResult.ok u ∧
      u.title = title ∧ u.description = desc ∧ u.due_date = dd ∧
      u.completed = t.completed ∧ u.timetable_id = t.timetable_id ∧
      u.id = t.id := by
  have ht' : db.tasks.find? (fun x => x.id == i) = some t := ht
  have hpt : (t.id == i) = true := List.find?_some (p := fun x : Task => x.id == i) ht'
  have hupd := update_task_found i title desc dd db t ht
  have hfind := find?_replaceFirst_self (fun x => x.id == i)
    { t with title := title, description := desc, due_date := dd }
    db.tasks hpt t ht'
  refine ⟨{ t with title := title, description := desc, due_date := dd },
    ?_, ?_, rfl, rfl, rfl, rfl, rfl, rfl⟩
  · rw [hupd]
  · rw [hupd]
    have hf2 : findTask
        { db with tasks := replaceFirst (fun x => x.id == i)
                     ({ t with title := title, description := desc, due_date := dd }) db.tasks } i
        = some { t with title := title, description := desc, due_date := dd } := hfind
    rw [get_task_found i _ _ hf2]

/-- C4 witness: updating fixture task 1 and reading it back. -/
theorem C4_witness :
    ∃ u : Task,
      (update_task 1 "x" "y" 20 egDB).1 = ApiResult.ok u ∧
      (get_task 1 (update_task 1 "x" "y" 20 egDB).2).1 = ApiResult.ok u ∧
      u.title = "x" ∧ u.description = "y" ∧ u.due_date = 20 ∧
      u.completed = tA.completed ∧ u.timetable_id = tA.timetable_id ∧
      u.id = tA.id :=
  C4_update_task_roundtrip 1 "x" "y" 20 egDB tA (by rfl)

/-- C6: the weekly summary is exactly the stored tasks whose `due_date`
lies in the closed interval from `today` to `today + 7`. -/
theorem C6_weekly_summary_range (today : Int) (db : DB) (t : Task) :
    t ∈ get_weekly_task_summary today db ↔
      t ∈ view_tasks db ∧ today ≤ t.due_date ∧ t.due_date ≤ today + 7 := by
  simp [get_weekly_task_summary, view_tasks, List.mem_filter, and_assoc]

/-- C6 witness: with today = 5, a task due exactly today (`tB`) and one due
exactly today + 7 (`tC`) are included, one due today + 8 (`tD`) is not. -/
theorem C6_witness :
    tB ∈ get_weekly_task_summary 5 egDB ∧
    tC ∈ get_weekly_task_summary 5 egDB ∧
    tD ∉ get_weekly_task_summary 5 egDB :=
  ⟨(C6_weekly_summary_range 5 egDB tB).mpr (by decide),
   (C6_weekly_summary_range 5 egDB tC).mpr (by decide),
   fun h => absurd ((C6_weekly_summary_range 5 egDB tD).mp h) (by decide)⟩

/-- C9: the reminder endpoint never changes the store, and it reports 404
exactly when the task does not exist. -/
theorem C9_reminder_no_effect (i : Nat) (rd : Int) (db : DB) :
    (set_task_reminder i rd db).2 = db ∧
    ((set_task_reminder i rd db).1 = ApiResult.notFound ↔ findTask db i = none) := by
  cases h : findTask db i <;> simp [set_task_reminder, h]

/-- C9 witness: the reminder no-effect property evaluated on the fixture
store. -/
theorem C9_witness :
    (set_task_reminder 1 9 egDB).2 = egDB ∧
    ((set_task_reminder 1 9 egDB).1 = ApiResult.notFound ↔ findTask egDB 1 = none) :=
  C9_reminder_no_effect 1 9 egDB

/-- C10: completing a task is idempotent — the second call returns the same
task and the same store — and completing an already-completed task still
succeeds, returning the task with `completed = true` and every other field
unchanged. -/
theorem C10_complete_idempotent (i : Nat) (db : DB) (t : Task)
    (ht : findTask db i = some t) :
    (mark_task_complete i db).1 = ApiResult.ok { t with completed := true } ∧
    mark_task_complete i (mark_task_complete i db).2 = mark_task_complete i db := by
  have ht' : db.tasks.find? (fun x => x.id == i) = some t := ht
  have hpt : (t.id == i) = true := List.find?_some (p := fun x : Task => x.id == i) ht'
  have hpu : (({ t with completed := true } : Task).id == i) = true := hpt
  have hfind := find?_replaceFirst_self (fun x => x.id == i)
    { t with completed := true } db.tasks hpu t ht'
  have hmark := mark_task_complete_found i db t ht
  constructor
  · rw [hmark]
  · have hf2 : findTask
        { db with tasks := replaceFirst (fun x => x.id == i)
                     ({ t with completed := true }) db.tasks } i
        = some { t with completed := true } := hfind
    have hmark2 := mark_task_complete_found i _ _ hf2
    have e2 : (mark_task_complete i db).2
        = { db with tasks := replaceFirst (fun x => x.id == i)
                       ({ t with completed := true }) db.tasks } := by
      rw [hmark]
    have hrr := replaceFirst_replaceFirst (fun x => x.id == i)
      { t with completed := true } hpu db.tasks
    rw [e2, hmark2, hmark]
    simp [hrr]

/-- C10 witness: completing fixture task 1 twice equals completing it
once. -/
theorem C10_witness :
    (mark_task_complete 1 egDB).1 = ApiResult.ok { tA with completed := true } ∧
    mark_task_complete 1 (mark_task_complete 1 egDB).2 = mark_task_complete 1 egDB :=
  C10_complete_idempotent 1 egDB tA (by rfl)

/-- C7: on an id that resolves to no record, get, update and delete (and
the completion endpoint) return 404 and leave the store unchanged, for both
entity types; deleting an existing task id twice succeeds the first time
and yields 404 the second time, with the state after the second call equal
to the state after the first. -/
theorem C7_missing_id_not_found (i : Nat) (db : DB) :
    (findTask db i = none →
      get_task i db = (ApiResult.notFound, db) ∧
      (∀ title desc dd, update_task i title desc dd db = (ApiResult.notFound, db)) ∧
      delete_task i db = (ApiResult.notFound, db) ∧
      mark_task_complete i db = (ApiResult.notFound, db)) ∧
    (findTimetable db i = none →
      get_timetable i db = (ApiResult.notFound, db) ∧
      (∀ n, update_timetable i n db = (ApiResult.notFound, db)) ∧
      delete_timetable i db = (ApiResult.notFound, db)) ∧
    (∀ t, db.tasks.Pairwise (fun a b => a.id ≠ b.id) → findTask db i = some t →
      (delete_task i db).1 = ApiResult.ok "Task deleted" ∧
      delete_task i (delete_task i db).2
        = (ApiResult.notFound, (delete_task i db).2)) := by
  refine ⟨?_, ?_, ?_⟩
  · intro h
    exact ⟨get_task_missing i db h,
           fun title desc dd => update_task_missing i title desc dd db h,
           delete_task_missing i db h,
           mark_task_complete_missing i db h⟩
  · intro h
    exact ⟨get_timetable_missing i db h,
           fun n => update_timetable_missing i n db h,
           delete_timetable_missing i db h⟩
  · intro t hwf ht
    have hdel := delete_task_found i db t ht
    constructor
    · rw [hdel]
    · have hfound : (db.tasks.find? (fun x => x.id == i)).isSome = true := by
        have ht' : db.tasks.find? (fun x => x.id == i) = some t := ht
        rw [ht']
        rfl
      have hnone := find?_eraseP_none_of_pairwise Task.id i
        (fun x => x.id == i) (fun u hu => by simpa using hu) db.tasks hwf hfound
      have h2 : findTask (delete_task i db).2 i = none := by
        rw [hdel]
        exact hnone
      exact delete_task_missing i _ h2

/-- C7 witness: on the fixture store, id 99 resolves to nothing and yields
404; deleting task 1 twice succeeds then yields 404 without further state
change. -/
theorem C7_witness :
    get_task 99 egDB = (ApiResult.notFound, egDB) ∧
    (delete_task 1 egDB).1 = ApiResult.ok "Task deleted" ∧
    delete_task 1 (delete_task 1 egDB).2
      = (ApiResult.notFound, (delete_task 1 egDB).2) :=
  ⟨((C7_missing_id_not_found 99 egDB).1 (by rfl)).1,
   ((C7_missing_id_not_found 1 egDB).2.2 tA (by decide) (by rfl)).1,
   ((C7_missing_id_not_found 1 egDB).2.2 tA (by decide) (by rfl)).2⟩

/-- C5: with unique task ids, the association-removal endpoint succeeds
exactly when some stored task has the given id and the given timetable, in
which case that task is gone afterwards; a task with the given id attached
to a different timetable yields 404, the store is unchanged, and the task
is still retrievable. -/
theorem C5_remove_task_iff (k i : Nat) (db : DB)
    (hwf : db.tasks.Pairwise (fun a b => a.id ≠ b.id)) :
    ((remove_task_from_timetable k i db).1 ≠ ApiResult.notFound ↔
      ∃ t ∈ db.tasks, t.id = i ∧ t.timetable_id = some k) ∧
    ((remove_task_from_timetable k i db).1 ≠ ApiResult.notFound →
      findTask (remove_task_from_timetable k i db).2 i = none) ∧
    (∀ t ∈ db.tasks, t.id = i → t.timetable_id ≠ some k →
      remove_task_from_timetable k i db = (ApiResult.notFound, db) ∧
      (get_task i db).1 = ApiResult.ok t) := by
  cases hq : db.tasks.find? (fun x => x.id == i && x.timetable_id == some k) with
  | none =>
    have hrm := remove_task_missing k i db hq
    refine ⟨?_, ?_, ?_⟩
    · constructor
      · intro hcon
        rw [hrm] at hcon
        exact absurd rfl hcon
      · rintro ⟨t, htm, hti, htk⟩
        have := List.find?_eq_none.mp hq t htm
        simp [hti, htk] at this
    · intro hcon
      rw [hrm] at hcon
      exact absurd rfl hcon
    · intro t htm hti htk
      refine ⟨hrm, ?_⟩
      have hfind := find?_eq_of_pairwise_mem Task.id i db.tasks t hwf htm hti
      rw [get_task_found i db t hfind]
  | some t0 =>
    have hrm := remove_task_found k i db t0 hq
    have hq0 : (t0.id == i && t0.timetable_id == some k) = true :=
      List.find?_some
        (p := fun x : Task => x.id == i && x.timetable_id == some k) hq
    have ht0mem : t0 ∈ db.tasks := List.mem_of_find?_eq_some hq
    have ht0i : t0.id = i := by
      have := hq0
      simp at this
      exact this.1
    have ht0k : t0.timetable_id = some k := by
      have := hq0
      simp at this
      exact this.2
    refine ⟨?_, ?_, ?_⟩
    · constructor
      · intro _
        exact ⟨t0, ht0mem, ht0i, ht0k⟩
      · intro _
        rw [hrm]
        simp
    · intro _
      have hnone := find?_eraseP_none_of_pairwise Task.id i
        (fun x => x.id == i && x.timetable_id == some k)
        (fun u hu => by simp at hu; exact hu.1) db.tasks hwf
        (by rw [hq]; rfl)
      rw [hrm]
      exact hnone
    · intro t htm hti htk
      have heq : t = t0 :=
        eq_of_pairwise_mem Task.id db.tasks t t0 hwf htm ht0mem
          (by rw [hti, ht0i])
      rw [heq] at htk
      exact absurd ht0k htk

/-- C5 witness: on the fixture store, removing task 3 (attached to
timetable 7) from timetable 5 yields 404 and the task is still there. -/
theorem C5_witness :
    remove_task_from_timetable 5 3 egDB = (ApiResult.notFound, egDB) ∧
    (get_task 3 egDB).1 = ApiResult.ok tC :=
  (C5_remove_task_iff 5 3 egDB (by decide)).2.2 tC (by decide) rfl (by decide)

/-- A no-change endpoint call satisfies every step obligation of the
id-assignment theorem. -/
theorem step_props_id (db : DB) (hT : taskIdsFresh db) (hU : timetableIdsFresh db) :
    idInv db ∧
    db.nextTaskId ≤ db.nextTaskId ∧
    db.nextTimetableId ≤ db.nextTimetableId ∧
    (∃ kept survivors newts,
      List.Sublist kept db.tasks ∧
      db.tasks = survivors ++ newts ∧
      List.Forall₂ (fun told tnew => tnew.id = told.id) kept survivors ∧
      ∀ tn ∈ newts, tn.id = db.nextTaskId) ∧
    (∃ keptU survivorsU newUs,
      List.Sublist keptU db.timetables ∧
      db.timetables = survivorsU ++ newUs ∧
      List.Forall₂ (fun uold unew => unew.id = uold.id) keptU survivorsU ∧
      ∀ un ∈ newUs, un.id = db.nextTimetableId) :=
  ⟨⟨hT, hU⟩, le_refl _, le_refl _,
   ⟨db.tasks, db.tasks, [], List.Sublist.refl _, (List.append_nil _).symm,
    forall₂_f_same Task.id db.tasks, fun tn h => absurd h (List.not_mem_nil _)⟩,
   ⟨db.timetables, db.timetables, [], List.Sublist.refl _, (List.append_nil _).symm,
    forall₂_f_same Timetable.id db.timetables, fun un h => absurd h (List.not_mem_nil _)⟩⟩

/-- C8: under the store invariant, every creation returns an id different
from every id currently or previously assigned to that entity type; every
endpoint preserves the invariant, never lowers the id counters, and turns
the stored list into a sublist of the old records — each surviving record
keeping exactly its old id — plus records carrying the one fresh id.  So
ids are never reused and no operation changes an existing record's id. -/
theorem C8_fresh_ids (db : DB) (h : idInv db) :
    (∀ title desc dd, (create_task title desc dd db).1.id ∉ db.tasks.map Task.id) ∧
    (∀ k title desc dd,
      (add_task_to_timetable k title desc dd db).1.id ∉ db.tasks.map Task.id) ∧
    (∀ n, (create_timetable n db).1.id ∉ db.timetables.map Timetable.id) ∧
    (∀ db2, Step db db2 →
      idInv db2 ∧
      db.nextTaskId ≤ db2.nextTaskId ∧
      db.nextTimetableId ≤ db2.nextTimetableId ∧
      (∃ kept survivors newts,
        List.Sublist kept db.tasks ∧
        db2.tasks = survivors ++ newts ∧
        List.Forall₂ (fun told tnew => tnew.id = told.id) kept survivors ∧
        ∀ tn ∈ newts, tn.id = db.nextTaskId) ∧
      (∃ keptU survivorsU newUs,
        List.Sublist keptU db.timetables ∧
        db2.timetables = survivorsU ++ newUs ∧
        List.Forall₂ (fun uold unew => unew.id = uold.id) keptU survivorsU ∧
        ∀ un ∈ newUs, un.id = db.nextTimetableId)) := by
  obtain ⟨hT, hU⟩ := h
  have hfreshT : db.nextTaskId ∉ db.tasks.map Task.id := by
    intro hmem
    rcases List.mem_map.mp hmem with ⟨t, htm, hid⟩
    exact absurd hid (Nat.ne_of_lt (hT t htm))
  have hfreshU : db.nextTimetableId ∉ db.timetables.map Timetable.id := by
    intro hmem
    rcases List.mem_map.mp hmem with ⟨u, hum, hid⟩
    exact absurd hid (Nat.ne_of_lt (hU u hum))
  refine ⟨fun title desc dd => hfreshT, fun k title desc dd => hfreshT,
          fun n => hfreshU, ?_⟩
  intro db2 hstep
  cases hstep with
  | createTimetableStep n db =>
    refine ⟨⟨hT, ?_⟩, le_refl _, Nat.le_succ _, ?_, ?_⟩
    · intro u hu
      rcases List.mem_append.mp hu with h1 | h1
      · exact Nat.lt_succ_of_lt (hU u h1)
      · rw [List.mem_singleton.mp h1]
        exact Nat.lt_succ_self _
    · exact ⟨db.tasks, db.tasks, [], List.Sublist.refl _, (List.append_nil _).symm,
             forall₂_f_same Task.id db.tasks, fun tn h => absurd h (List.not_mem_nil _)⟩
    · exact ⟨db.timetables, db.timetables,
             [{ id := db.nextTimetableId, name := n }],
             List.Sublist.refl _, rfl, forall₂_f_same Timetable.id db.timetables,
             fun un h => by rw [List.mem_singleton.mp h]⟩
  | updateTimetableStep i n db =>
    cases hf : findTimetable db i with
    | none =>
      have e : (update_timetable i n db).2 = db := by
        rw [update_timetable_missing i n db hf]
      rw [e]
      exact step_props_id db hT hU
    | some u =>
      have humem : u ∈ db.timetables := List.mem_of_find?_eq_some hf
      have hui : u.id = i := by
        simpa using List.find?_some (p := fun x : Timetable => x.id == i) hf
      have hp : ∀ x : Timetable, (x.id == i) = true →
          ({ u with name := n } : Timetable).id = x.id := by
        intro x hx
        have hxi : x.id = i := by simpa using hx
        show u.id = x.id
        rw [hui, hxi]
      have e : (update_timetable i n db).2
          = { db with timetables := replaceFirst (fun x => x.id == i)
                                      ({ u with name := n }) db.timetables } := by
        rw [update_timetable_found i n db u hf]
      rw [e]
      refine ⟨⟨hT, ?_⟩, le_refl _, le_refl _, ?_, ?_⟩
      · intro u2 h2
        rcases mem_replaceFirst _ _ _ _ h2 with hm | heq
        · exact hU u2 hm
        · rw [heq]
          exact hU u humem
      · exact ⟨db.tasks, db.tasks, [], List.Sublist.refl _, (List.append_nil _).symm,
               forall₂_f_same Task.id db.tasks, fun tn h => absurd h (List.not_mem_nil _)⟩
      · exact ⟨db.timetables,
               replaceFirst (fun x => x.id == i) ({ u with name := n }) db.timetables, [],
               List.Sublist.refl _, (List.append_nil _).symm,
               forall₂_f_replaceFirst Timetable.id (fun x => x.id == i)
                 ({ u with name := n }) db.timetables hp,
               fun un h => absurd h (List.not_mem_nil _)⟩
  | deleteTimetableStep i db =>
    cases hf : findTimetable db i with
    | none =>
      have e : (delete_timetable i db).2 = db := by
        rw [delete_timetable_missing i db hf]
      rw [e]
      exact step_props_id db hT hU
    | some u =>
      have e : (delete_timetable i db).2
          = { db with timetables := db.timetables.eraseP (fun x => x.id == i),
                      tasks := deassociateTasks i db.tasks } := by
        rw [delete_timetable_found i db u hf]
      rw [e]
      refine ⟨⟨?_, ?_⟩, le_refl _, le_refl _, ?_, ?_⟩
      · intro t2 h2
        have h2m : t2 ∈ db.tasks.map (fun t =>
            if t.timetable_id == some i
            then { t with timetable_id := none } else t) := h2
        rcases List.mem_map.mp h2m with ⟨a, ham, rfl⟩
        by_cases ha : (a.timetable_id == some i) = true
        · rw [if_pos ha]
          exact hT a ham
        · rw [if_neg ha]
          exact hT a ham
      · intro u2 h2
        exact hU u2 ((List.eraseP_sublist _).mem h2)
      · exact ⟨db.tasks, deassociateTasks i db.tasks, [], List.Sublist.refl _,
               (List.append_nil _).symm, forall₂_id_deassociate i db.tasks,
               fun tn h => absurd h (List.not_mem_nil _)⟩
      · exact ⟨db.timetables.eraseP (fun x => x.id == i),
               db.timetables.eraseP (fun x => x.id == i), [],
               List.eraseP_sublist _, (List.append_nil _).symm,
               forall₂_f_same Timetable.id _, fun un h => absurd h (List.not_mem_nil _)⟩
  | createTaskStep title desc dd db =>
    refine ⟨⟨?_, hU⟩, Nat.le_succ _, le_refl _, ?_, ?_⟩
    · intro t2 h2
      rcases List.mem_append.mp h2 with h1 | h1
      · exact Nat.lt_succ_of_lt (hT t2 h1)
      · rw [List.mem_singleton.mp h1]
        exact Nat.lt_succ_self _
    · exact ⟨db.tasks, db.tasks,
             [{ id := db.nextTaskId, title := title, description := desc,
                due_date := dd, completed := false, timetable_id := none }],
             List.Sublist.refl _, rfl, forall₂_f_same Task.id db.tasks,
             fun tn h => by rw [List.mem_singleton.mp h]⟩
    · exact ⟨db.timetables, db.timetables, [], List.Sublist.refl _,
             (List.append_nil _).symm, forall₂_f_same Timetable.id db.timetables,
             fun un h => absurd h (List.not_mem_nil _)⟩
  | updateTaskStep i title desc dd db =>
    cases hf : findTask db i with
    | none =>
      have e : (update_task i title desc dd db).2 = db := by
        rw [update_task_missing i title desc dd db hf]
      rw [e]
      exact step_props_id db hT hU
    | some t =>
      have htmem : t ∈ db.tasks := List.mem_of_find?_eq_some hf
      have hti : t.id = i := by
        simpa using List.find?_some (p := fun x : Task => x.id == i) hf
      have hp : ∀ x : Task, (x.id == i) = true →
          ({ t with title := title, description := desc, due_date := dd } : Task).id
            = x.id := by
        intro x hx
        have hxi : x.id = i := by simpa using hx
        show t.id = x.id
        rw [hti, hxi]
      have e : (update_task i title desc dd db).2
          = { db with tasks := replaceFirst (fun x => x.id == i)
                         ({ t with title := title, description := desc, due_date := dd })
                         db.tasks } := by
        rw [update_task_found i title desc dd db t hf]
      rw [e]
      refine ⟨⟨?_, hU⟩, le_refl _, le_refl _, ?_, ?_⟩
      · intro t2 h2
        rcases mem_replaceFirst _ _ _ _ h2 with hm | heq
        · exact hT t2 hm
        · rw [heq]
          exact hT t htmem
      · exact ⟨db.tasks,
               replaceFirst (fun x => x.id == i)
                 ({ t with title := title, description := desc, due_date := dd })
                 db.tasks, [],
               List.Sublist.refl _, (List.append_nil _).symm,
               forall₂_f_replaceFirst Task.id (fun x => x.id == i)
                 ({ t with title := title, description := desc, due_date := dd })
                 db.tasks hp,
               fun tn h => absurd h (List.not_mem_nil _)⟩
      · exact ⟨db.timetables, db.timetables, [], List.Sublist.refl _,
               (List.append_nil _).symm, forall₂_f_same Timetable.id db.timetables,
               fun un h => absurd h (List.not_mem_nil _)⟩
  | deleteTaskStep i db =>
    cases hf : findTask db i with
    | none =>
      have e : (delete_task i db).2 = db := by
        rw [delete_task_missing i db hf]
      rw [e]
      exact step_props_id db hT hU
    | some t =>
      have e : (delete_task i db).2
          = { db with tasks := db.tasks.eraseP (fun x => x.id == i) } := by
        rw [delete_task_found i db t hf]
      rw [e]
      refine ⟨⟨?_, hU⟩, le_refl _, le_refl _, ?_, ?_⟩
      · intro t2 h2
        exact hT t2 ((List.eraseP_sublist _).mem h2)
      · exact ⟨db.tasks.eraseP (fun x => x.id == i),
               db.tasks.eraseP (fun x => x.id == i), [],
               List.eraseP_sublist _, (List.append_nil _).symm,
               forall₂_f_same Task.id _, fun tn h => absurd h (List.not_mem_nil _)⟩
      · exact ⟨db.timetables, db.timetables, [], List.Sublist.refl _,
               (List.append_nil _).symm, forall₂_f_same Timetable.id db.timetables,
               fun un h => absurd h (List.not_mem_nil _)⟩
  | completeTaskStep i db =>
    cases hf : findTask db i with
    | none =>
      have e : (mark_task_complete i db).2 = db := by
        rw [mark_task_complete_missing i db hf]
      rw [e]
      exact step_props_id db hT hU
    | some t =>
      have htmem : t ∈ db.tasks := List.mem_of_find?_eq_some hf
      have hti : t.id = i := by
        simpa using List.find?_some (p := fun x : Task => x.id == i) hf
      have hp : ∀ x : Task, (x.id == i) = true →
          ({ t with completed := true } : Task).id = x.id := by
        intro x hx
        have hxi : x.id = i := by simpa using hx
        show t.id = x.id
        rw [hti, hxi]
      have e : (mark_task_complete i db).2
          = { db with tasks := replaceFirst (fun x => x.id == i)
                         ({ t with completed := true }) db.tasks } := by
        rw [mark_task_complete_found i db t hf]
      rw [e]
      refine ⟨⟨?_, hU⟩, le_refl _, le_refl _, ?_, ?_⟩
      · intro t2 h2
        rcases mem_replaceFirst _ _ _ _ h2 with hm | heq
        · exact hT t2 hm
        · rw [heq]
          exact hT t htmem
      · exact ⟨db.tasks,
               replaceFirst (fun x => x.id == i) ({ t with completed := true }) db.tasks, [],
               List.Sublist.refl _, (List.append_nil _).symm,
               forall₂_f_replaceFirst Task.id (fun x => x.id == i)
                 ({ t with completed := true }) db.tasks hp,
               fun tn h => absurd h (List.not_mem_nil _)⟩
      · exact ⟨db.timetables, db.timetables, [], List.Sublist.refl _,
               (List.append_nil _).symm, forall₂_f_same Timetable.id db.timetables,
               fun un h => absurd h (List.not_mem_nil _)⟩
  | addTaskStep k title desc dd db =>
    refine ⟨⟨?_, hU⟩, Nat.le_succ _, le_refl _, ?_, ?_⟩
    · intro t2 h2
      rcases List.mem_append.mp h2 with h1 | h1
      · exact Nat.lt_succ_of_lt (hT t2 h1)
      · rw [List.mem_singleton.mp h1]
        exact Nat.lt_succ_self _
    · exact ⟨db.tasks, db.tasks,
             [{ id := db.nextTaskId, title := title, description := desc,
                due_date := dd, completed := false, timetable_id := some k }],
             List.Sublist.refl _, rfl, forall₂_f_same Task.id db.tasks,
             fun tn h => by rw [List.mem_singleton.mp h]⟩
    · exact ⟨db.timetables, db.timetables, [], List.Sublist.refl _,
             (List.append_nil _).symm, forall₂_f_same Timetable.id db.timetables,
             fun un h => absurd h (List.not_mem_nil _)⟩
  | removeTaskStep k i db =>
    cases hf : db.tasks.find? (fun x => x.id == i && x.timetable_id == some k) with
    | none =>
      have e : (remove_task_from_timetable k i db).2 = db := by
        rw [remove_task_missing k i db hf]
      rw [e]
      exact step_props_id db hT hU
    | some t =>
      have e : (remove_task_from_timetable k i db).2
          = { db with tasks :=
                db.tasks.eraseP (fun x => x.id == i && x.timetable_id == some k) } := by
        rw [remove_task_found k i db t hf]
      rw [e]
      refine ⟨⟨?_, hU⟩, le_refl _, le_refl _, ?_, ?_⟩
      · intro t2 h2
        exact hT t2 ((List.eraseP_sublist _).mem h2)
      · exact ⟨db.tasks.eraseP (fun x => x.id == i && x.timetable_id == some k),
               db.tasks.eraseP (fun x => x.id == i && x.timetable_id == some k), [],
               List.eraseP_sublist _, (List.append_nil _).symm,
               forall₂_f_same Task.id _, fun tn h => absurd h (List.not_mem_nil _)⟩
      · exact ⟨db.timetables, db.timetables, [], List.Sublist.refl _,
               (List.append_nil _).symm, forall₂_f_same Timetable.id db.timetables,
               fun un h => absurd h (List.not_mem_nil _)⟩
  | reminderStep i rd db =>
    rw [set_task_reminder_state i rd db]
    exact step_props_id db hT hU

/-- The fixture store satisfies the id-assignment invariant. -/
theorem egDB_idInv : idInv egDB := by
  constructor
  · intro t ht
    simp only [egDB, List.mem_cons, List.not_mem_nil, or_false] at ht
    rcases ht with rfl | rfl | rfl | rfl <;> decide
  · intro u hu
    simp only [egDB, List.mem_cons, List.not_mem_nil, or_false] at hu
    rw [hu]
    decide

/-- C8 witness: on the fixture store, a created task gets an unused id, and
the completion endpoint preserves the invariant. -/
theorem C8_witness :
    (create_task "x" "y" 0 egDB).1.id ∉ egDB.tasks.map Task.id ∧
    idInv (mark_task_complete 1 egDB).2 :=
  ⟨(C8_fresh_ids egDB egDB_idInv).1 "x" "y" 0,
   ((C8_fresh_ids egDB egDB_idInv).2.2.2
      (mark_task_complete 1 egDB).2 (Step.completeTaskStep 1 egDB)).1⟩

end Planner
